import Mathlib

/-!
Verification development for the fav-song-analysis repository
(src/spotipy_func.py and src/plot_func.py).

Python runtime values are shallowly embedded as an inductive `JValue`;
Python indexing (`value[key]`, `value[i]`, `dict.get`) is embedded as
fallible operations in `Except PyErr`, mirroring the exceptions CPython
raises (KeyError, TypeError, IndexError, AttributeError, ValueError).
Numeric values are rationals. The network client and the random source
are passed in as oracle functions.
-/

/-- The Python exception kinds the embedded code can raise. -/
inductive PyErr where
  | keyError
  | typeError
  | indexError
  | attributeError
  | valueError
  deriving DecidableEq, Repr

/-- A Python runtime value: None, bool, number, string, list or dict. -/
inductive JValue where
  | null
  | bool (b : Bool)
  | num (q : Rat)
  | str (s : String)
  | arr (items : List JValue)
  | obj (fields : List (String × JValue))

/-- Python truthiness: None, False, 0, empty string/list/dict are falsy. -/
def JValue.truthy : JValue → Bool
  | .null => false
  | .bool b => b
  | .num q => decide (q ≠ 0)
  | .str s => decide (s ≠ "")
  | .arr items => !items.isEmpty
  | .obj fields => !fields.isEmpty

/-- Python `value[key]` for a string key: dict lookup raises KeyError when
the key is absent; subscripting any non-dict with a string raises TypeError
(in particular `None[key]` and `scalar[key]`). -/
def JValue.index : JValue → String → Except PyErr JValue
  | .obj fields, k =>
    match fields.lookup k with
    | some v => .ok v
    | none => .error .keyError
  | _, _ => .error .typeError

/-- Python `value[i]` for an integer index on a list: IndexError when out of
range; subscripting a non-sequence raises TypeError. -/
def JValue.atIdx : JValue → Nat → Except PyErr JValue
  | .arr items, i =>
    match items.get? i with
    | some v => .ok v
    | none => .error .indexError
  | _, _ => .error .typeError

/-- Python `d.get(key, default)`: defaulting lookup on a dict; calling
`.get` on a non-dict raises AttributeError. -/
def JValue.getDefault : JValue → String → JValue → Except PyErr JValue
  | .obj fields, k, dflt => .ok ((fields.lookup k).getD dflt)
  | _, _, _ => .error .attributeError

/-- Left-to-right sequencing of fallible computations, as Python evaluates
a list of subexpressions: the first raised exception aborts the whole list. -/
def exSequence : List (Except PyErr JValue) → Except PyErr (List JValue)
  | [] => .ok []
  | e :: es =>
    match e with
    | .error err => .error err
    | .ok v =>
      match exSequence es with
      | .error err => .error err
      | .ok vs => .ok (v :: vs)

/-- `re.split` with a single-character class: split the character list at
every character satisfying the predicate, keeping empty segments. -/
def pySplit (p : Char → Bool) : List Char → List (List Char)
  | [] => [[]]
  | c :: cs =>
    if p c then
      [] :: pySplit p cs
    else
      match pySplit p cs with
      | [] => [[c]]
      | seg :: segs => (c :: seg) :: segs

/-- `split_by_brackets` (src/spotipy_func.py:168): splits the input string
on the bracket characters and keeps only the truthy (non-empty) parts. -/
def split_by_brackets (s : String) : List String :=
  let parts := (pySplit (fun c => c == '[' || c == ']') s.data).map (fun cs => String.mk cs)
  parts.filter (fun part => part ≠ "")

/-- `get_nested_value` (src/spotipy_func.py:181): starting from the root,
index one key at a time; any failed lookup propagates as an exception. -/
def get_nested_value (dic : JValue) (key_path : List String) : Except PyErr JValue :=
  key_path.foldlM JValue.index dic

/-- `get_track_info` (src/spotipy_func.py:214): for every requested feature
path, split it on brackets and resolve it against the track record,
collecting the values in order; a resolution failure aborts the whole call. -/
def get_track_info (track : JValue) (features : List String) : Except PyErr (List JValue) :=
  exSequence (features.map (fun feature => get_nested_value track (split_by_brackets feature)))

/-- A pandas DataFrame, reduced to what the code builds: a column header
and a list of rows. -/
structure DataFrame where
  columns : List String
  rows : List (List JValue)

/-- The 19 fixed base column names of the flattened table
(src/spotipy_func.py:280). -/
def base_column_names : List String :=
  ["added_at", "track_name", "track_id", "artist", "album", "popularity", "danceability",
   "energy", "key", "loudness", "mode", "speechiness", "acousticness", "instrumentalness",
   "liveness", "valence", "tempo", "duration_ms", "time_signature"]

/-- The 19 base field accesses of `merge_track_details_and_features`
(src/spotipy_func.py:251), in source order: one entry-level field, five
track-level fields, thirteen audio-feature fields. -/
def baseFieldLookups (item track features : JValue) : List (Except PyErr JValue) :=
  [item.index "added_at",
   track.index "name",
   track.index "id",
   (track.index "artists") >>= (fun a => a.atIdx 0) >>= (fun a0 => a0.index "name"),
   (track.index "album") >>= (fun al => al.index "name"),
   track.index "popularity",
   features.index "danceability",
   features.index "energy",
   features.index "key",
   features.index "loudness",
   features.index "mode",
   features.index "speechiness",
   features.index "acousticness",
   features.index "instrumentalness",
   features.index "liveness",
   features.index "valence",
   features.index "tempo",
   features.index "duration_ms",
   features.index "time_signature"]

/-- One row of `merge_track_details_and_features` (src/spotipy_func.py:250):
first `track = item["track"]` is read, then the 19 base fields are
evaluated left to right, then the playlist label, then — only when
`extra_track_info` is non-empty — the extra values from `get_track_info`. -/
def buildRow (item features playlist_name : JValue) (extra_track_info : List String) :
    Except PyErr (List JValue) :=
  match item.index "track" with
  | .error err => .error err
  | .ok track =>
    match exSequence (baseFieldLookups item track features) with
    | .error err => .error err
    | .ok base =>
      let track_details := base ++ [playlist_name]
      if !extra_track_info.isEmpty then
        match get_track_info item extra_track_info with
        | .error err => .error err
        | .ok extra_features => .ok (track_details ++ extra_features)
      else
        .ok track_details

/-- The row-building loop of `merge_track_details_and_features`
(src/spotipy_func.py:246): pairs are consumed in order; a pair whose item
or features value is falsy contributes no row; otherwise the built row is
appended, and any exception raised while building aborts the whole loop. -/
def buildRows (pairs : List (JValue × JValue)) (playlist_name : JValue)
    (extra_track_info : List String) : Except PyErr (List (List JValue)) :=
  match pairs with
  | [] => .ok []
  | (item, features) :: rest =>
    if !item.truthy || !features.truthy then
      buildRows rest playlist_name extra_track_info
    else
      match buildRow item features playlist_name extra_track_info with
      | .error err => .error err
      | .ok row =>
        match buildRows rest playlist_name extra_track_info with
        | .error err => .error err
        | .ok rows => .ok (row :: rows)

/-- `merge_track_details_and_features` (src/spotipy_func.py:227): zip the
track wrappers with their audio features, build one row per surviving
pair, and wrap the rows in a DataFrame whose header is the 19 base names,
then "label", then the extra path strings verbatim. -/
def merge_track_details_and_features (tracks audio_features : List JValue)
    (playlist_name : JValue) (extra_track_info : List String) : Except PyErr DataFrame :=
  match buildRows (tracks.zip audio_features) playlist_name extra_track_info with
  | .error err => .error err
  | .ok track_list =>
    .ok { columns := base_column_names ++ ["label"] ++ extra_track_info, rows := track_list }

/-- The batching loop of `get_audio_features`, with explicit fuel (the fuel
is instantiated with the list length, which bounds the number of
iterations): each step takes the next at-most-100 identifiers, mirroring
`track_ids[i:i+100]` for `i in range(0, len(track_ids), 100)`. -/
def chunksGo (fuel : Nat) (l : List String) : List (List String) :=
  match fuel, l with
  | 0, _ => []
  | _ + 1, [] => []
  | fuel + 1, x :: xs => (x :: xs.take 99) :: chunksGo fuel (xs.drop 99)

/-- The successive batches `track_ids[0:100], track_ids[100:200], ...` of
`get_audio_features` (src/spotipy_func.py:145). -/
def chunks100 (track_ids : List String) : List (List String) :=
  chunksGo track_ids.length track_ids

/-- `get_audio_features` (src/spotipy_func.py:128): issue one client call
per batch of at most 100 identifiers and extend the accumulator with each
response, in order. The remote call `sp.audio_features` is the oracle
`api`. -/
def get_audio_features (api : List String → List JValue) (track_ids : List String) :
    List JValue :=
  (chunks100 track_ids).foldl (fun acc batch => acc ++ api batch) []

/-- `extract_track_ids` (src/spotipy_func.py:150): the comprehension
`[item["track"]["id"] for item in tracks if item["track"]]` — for each
item the track field is read, falsy tracks are skipped, and for truthy
tracks the id is read; a failed lookup raises. -/
def extract_track_ids (tracks : List JValue) : Except PyErr (List JValue) :=
  match tracks with
  | [] => .ok []
  | item :: rest =>
    match item.index "track" with
    | .error err => .error err
    | .ok track =>
      if track.truthy then
        match track.index "id" with
        | .error err => .error err
        | .ok id =>
          match extract_track_ids rest with
          | .error err => .error err
          | .ok ids => .ok (id :: ids)
      else
        extract_track_ids rest

/-- The `time_points` argument of `get_tracks_by_names_and_artists`: either
a plain Python list (the default `[]` is one) or a pandas Series. Only a
Series has the `.iloc` accessor; on a plain list, attribute access raises
AttributeError. -/
inductive TimePoints where
  | pylist (l : List JValue)
  | series (l : List JValue)

/-- `len(time_points)`. -/
def TimePoints.len : TimePoints → Nat
  | .pylist l => l.length
  | .series l => l.length

/-- `time_points.iloc[i]`: positional access on a Series; AttributeError on
a plain list, which has no `iloc` attribute. -/
def TimePoints.iloc : TimePoints → Nat → Except PyErr JValue
  | .pylist _, _ => .error .attributeError
  | .series l, i =>
    match l.get? i with
    | some v => .ok v
    | none => .error .indexError

/-- The search query string `f"track:.. artist:.."` (src/spotipy_func.py:309). -/
def searchQuery (track_name artist_name : String) : String :=
  "track:" ++ track_name ++ " artist:" ++ artist_name

/-- The per-index loop of `get_tracks_by_names_and_artists`
(src/spotipy_func.py:308): for each (name, artist) pair at index `i`, issue
one search, read `results.get("tracks", dict()).get("items", list())`, and
when the item list is truthy build the song record — evaluating
`time_points.iloc[i] if len(time_points) > 0 else None` first, then
`track_items[0]`. Returns the list of queries issued together with either
the collected songs or the first raised exception. -/
def searchLoop (search : String → JValue) (time_points : TimePoints) (i : Nat) :
    List (String × String) → List String × Except PyErr (List JValue)
  | [] => ([], .ok [])
  | (track_name, artist_name) :: rest =>
    let query := searchQuery track_name artist_name
    let results := search query
    match (results.getDefault "tracks" (.obj [])) >>= (fun t => t.getDefault "items" (.arr [])) with
    | .error e => ([query], .error e)
    | .ok track_items =>
      if track_items.truthy then
        match (if 0 < time_points.len then time_points.iloc i else .ok .null) with
        | .error e => ([query], .error e)
        | .ok added_at =>
          match track_items.atIdx 0 with
          | .error e => ([query], .error e)
          | .ok item0 =>
            let song_format : JValue := .obj [("added_at", added_at), ("track", item0)]
            let (log, res) := searchLoop search time_points (i + 1) rest
            (query :: log, res.map (fun songs => song_format :: songs))
      else
        let (log, res) := searchLoop search time_points (i + 1) rest
        (query :: log, res)

/-- `get_tracks_by_names_and_artists` (src/spotipy_func.py:286): the two
length guards raise ValueError before any search is issued; otherwise the
pairs are processed in order by `searchLoop`. The first component of the
result is the list of search queries actually sent to the client. -/
def get_tracks_by_names_and_artists (search : String → JValue)
    (track_names artist_names : List String) (time_points : TimePoints) :
    List String × Except PyErr (List JValue) :=
  if track_names.length ≠ artist_names.length then
    ([], .error .valueError)
  else if 0 < time_points.len ∧ track_names.length ≠ time_points.len then
    ([], .error .valueError)
  else
    searchLoop search time_points 0 (track_names.zip artist_names)

/-- `np.mean`: the arithmetic mean of a list, as an exact rational. -/
def np_mean (l : List Rat) : Rat :=
  l.sum / (l.length : Rat)

/-- `np.random.choice(data, size=n, replace=True)`, with the random draw
given by an oracle `pick` assigning to each position a (uniformly drawn)
index into `data`: the resample is `[data[pick 0], ..., data[pick (n-1)]]`. -/
def np_choice (data : List Rat) (n : Nat) (pick : Nat → Nat) : List Rat :=
  (List.range n).map (fun j => data.getD (pick j) 0)

/-- `np.percentile(a, p)` with the default linear interpolation: sort the
values, locate the fractional rank `h = p/100 * (n-1)`, and interpolate
between the two neighbouring order statistics. -/
def np_percentile (a : List Rat) (p : Rat) : Rat :=
  let s := a.mergeSort (fun x y => decide (x ≤ y))
  let h : Rat := p / 100 * ((a.length : Rat) - 1)
  let i : Nat := (⌊h⌋).toNat
  let lo := s.getD i 0
  let hi := s.getD (i + 1) lo
  lo + (h - (⌊h⌋ : Rat)) * (hi - lo)

/-- `bootstrap_ci` (src/plot_func.py:11): draw `n_bootstrap` resamples of
size `len(data)` with replacement (the randomness is the index oracle
`pick`, one index per resample per position), take the mean of each, and
return the `(100-ci)/2`-th and `100-(100-ci)/2`-th percentiles of the
resample means. -/
def bootstrap_ci (pick : Nat → Nat → Nat) (data : List Rat) (n_bootstrap : Nat) (ci : Rat) :
    Rat × Rat :=
  let boot_means := (List.range n_bootstrap).map
    (fun r => np_mean (np_choice data data.length (pick r)))
  let lower := np_percentile boot_means ((100 - ci) / 2)
  let upper := np_percentile boot_means (100 - (100 - ci) / 2)
  (lower, upper)

/-! Concrete sample records, shaped like the catalog data the repository
consumes: playlist-entry wrappers holding a track record, and audio-feature
vectors with the thirteen descriptor keys. -/

/-- A well-formed track record. -/
def sampleTrack (nm id artist album : String) (pop : Rat) : JValue :=
  .obj [("name", .str nm), ("id", .str id),
        ("artists", .arr [.obj [("name", .str artist)]]),
        ("album", .obj [("name", .str album)]),
        ("popularity", .num pop)]

/-- A well-formed audio-feature vector whose free descriptors are `t`. -/
def sampleFeatures (t : Rat) : JValue :=
  .obj [("danceability", .num t), ("energy", .num t), ("key", .num 5),
        ("loudness", .num (-7)), ("mode", .num 1), ("speechiness", .num t),
        ("acousticness", .num t), ("instrumentalness", .num 0),
        ("liveness", .num t), ("valence", .num t), ("tempo", .num 120),
        ("duration_ms", .num 200000), ("time_signature", .num 4)]

/-- Playlist entry 1: a present track. -/
def sampleEntry1 : JValue :=
  .obj [("added_at", .str "2024-01-01"), ("track", sampleTrack "song one" "id1" "artist one" "album one" 41)]

/-- Playlist entry 2: a wrapper whose track reference is null (a track
removed from the catalog). -/
def nullTrackEntry : JValue :=
  .obj [("added_at", .str "2024-01-02"), ("track", .null)]

/-- Playlist entry 3: another present track. -/
def sampleEntry3 : JValue :=
  .obj [("added_at", .str "2024-01-03"), ("track", sampleTrack "song three" "id3" "artist three" "album three" 77)]

/-- C4: parsePath (split_by_brackets) splits its input on the literal
characters of the bracket pair and drops empty segments:
"[a][b][c]" gives a, b, c; "abc" gives abc; "[][a][]" gives a. -/
theorem split_by_brackets_examples :
    split_by_brackets "[a][b][c]" = ["a", "b", "c"] ∧
    split_by_brackets "abc" = ["abc"] ∧
    split_by_brackets "[][a][]" = ["a"] :=
  ⟨by decide, by decide, by decide⟩

/-- C5: resolve (get_nested_value) indexes sequentially into the root one
key at a time; it returns the value when every segment resolves, raises
TypeError when a segment indexes into a scalar, raises KeyError when a
segment is a missing key, and never substitutes a default value. -/
theorem get_nested_value_examples :
    get_nested_value (.obj [("a", .obj [("b", .obj [("c", .num 10)])])]) ["a", "b", "c"]
      = .ok (.num 10) ∧
    get_nested_value (.obj [("a", .num 1)]) ["a", "b"] = .error .typeError ∧
    get_nested_value (.obj [("a", .num 1)]) ["b"] = .error .keyError ∧
    (∀ (dic : JValue) (k : String) (ks : List String),
      get_nested_value dic (k :: ks) =
        match dic.index k with
        | .error err => .error err
        | .ok v => get_nested_value v ks) ∧
    (∀ dic : JValue, get_nested_value dic [] = .ok dic) := by
  refine ⟨rfl, rfl, rfl, fun dic k ks => ?_, fun dic => rfl⟩
  show List.foldlM JValue.index dic (k :: ks) = _
  rw [show List.foldlM JValue.index dic (k :: ks) =
        Bind.bind (dic.index k) (fun v => List.foldlM JValue.index v ks) from rfl]
  cases h : dic.index k <;> rfl

/-- C1 (failing input): flatten does not skip a wrapper whose track
reference is null — the guard tests the wrapper itself, so the null track
flows into the field reads and subscripting None raises TypeError. On the
spec's own 3-record example (record 2 has a null track) the call raises
instead of returning the 2 surviving rows; a null paired feature vector,
in contrast, is skipped as documented. -/
theorem merge_null_track_raises :
    merge_track_details_and_features [sampleEntry1, nullTrackEntry, sampleEntry3]
      [sampleFeatures 1, sampleFeatures 2, sampleFeatures 3] (.str "liked") []
      = .error .typeError ∧
    (merge_track_details_and_features [sampleEntry1, sampleEntry3]
      [sampleFeatures 1, JValue.null] (.str "liked") []).map (fun df => df.rows.length)
      = .ok 1 :=
  ⟨rfl, rfl⟩

/-- A successful sequencing yields exactly one value per computation. -/
theorem exSequence_ok_length (es : List (Except PyErr JValue)) (vs : List JValue)
    (h : exSequence es = .ok vs) : vs.length = es.length := by
  induction es generalizing vs with
  | nil =>
    have hv : vs = [] := by
      have h' : (Except.ok [] : Except PyErr (List JValue)) = .ok vs := h
      exact (Except.ok.inj h').symm
    simp [hv]
  | cons e es ih =>
    cases e with
    | error err => simp [exSequence] at h
    | ok v =>
      cases hes : exSequence es with
      | error err => simp [exSequence, hes] at h
      | ok ws =>
        simp only [exSequence, hes] at h
        have h' := Except.ok.inj h
        simp [← h', ih ws hes]

/-- A successful extra-field extraction yields one value per requested path. -/
theorem get_track_info_ok_length (track : JValue) (features : List String)
    (vs : List JValue) (h : get_track_info track features = .ok vs) :
    vs.length = features.length := by
  unfold get_track_info at h
  simpa using exSequence_ok_length _ _ h

/-- A successfully built row is the 19 base values, then the label, then
one extra value per requested path. -/
theorem buildRow_ok_shape (item features playlist_name : JValue)
    (extra_track_info : List String) (row : List JValue)
    (h : buildRow item features playlist_name extra_track_info = .ok row) :
    ∃ base extras, row = base ++ playlist_name :: extras ∧
      base.length = 19 ∧ extras.length = extra_track_info.length := by
  unfold buildRow at h
  split at h
  · simp at h
  · rename_i track htrack
    split at h
    · simp at h
    · rename_i base hbase
      have hb : base.length = 19 := by
        simpa [baseFieldLookups] using exSequence_ok_length _ _ hbase
      split at h
      · rename_i hne
        split at h
        · simp at h
        · rename_i extras hextras
          refine ⟨base, extras, ?_, hb, get_track_info_ok_length _ _ _ hextras⟩
          have h' := (Except.ok.inj h).symm
          simp [h']
      · rename_i hemp
        have hz : extra_track_info = [] := by
          simpa using hemp
        refine ⟨base, [], ?_, hb, by simp [hz]⟩
        have h' := (Except.ok.inj h).symm
        simp [h']

/-- Every row emitted by the row-building loop has the base-label-extras
shape. -/
theorem buildRows_ok_shape (pairs : List (JValue × JValue)) (playlist_name : JValue)
    (extra_track_info : List String) (rows : List (List JValue))
    (h : buildRows pairs playlist_name extra_track_info = .ok rows) :
    ∀ row ∈ rows, ∃ base extras, row = base ++ playlist_name :: extras ∧
      base.length = 19 ∧ extras.length = extra_track_info.length := by
  induction pairs generalizing rows with
  | nil =>
    have hv : rows = [] := by
      have h' : (Except.ok [] : Except PyErr (List (List JValue))) = .ok rows := h
      exact (Except.ok.inj h').symm
    simp [hv]
  | cons p rest ih =>
    obtain ⟨item, features⟩ := p
    rw [buildRows] at h
    split at h
    · exact ih rows h
    · split at h
      · simp at h
      · rename_i row hrow
        split at h
        · simp at h
        · rename_i rows' hrows
          have h' := (Except.ok.inj h).symm
          intro r hr
          rw [h'] at hr
          rcases List.mem_cons.mp hr with hr | hr
          · subst hr
            exact buildRow_ok_shape _ _ _ _ _ hrow
          · exact ih rows' hrows r hr

/-- C2: for every input and every extraPaths list of length k, a successful
flatten has header = 19 base names, then "label", then the k path strings
verbatim (length 20 + k), and every emitted row has that same length, with
the label value at position 19 and the extra values after it. -/
theorem merge_schema (tracks audio_features : List JValue) (playlist_name : JValue)
    (extra_track_info : List String) (df : DataFrame)
    (h : merge_track_details_and_features tracks audio_features playlist_name
      extra_track_info = .ok df) :
    df.columns = base_column_names ++ ["label"] ++ extra_track_info ∧
    df.columns.length = 20 + extra_track_info.length ∧
    ∀ row ∈ df.rows, row.length = 20 + extra_track_info.length ∧
      row[19]? = some playlist_name := by
  unfold merge_track_details_and_features at h
  split at h
  · simp at h
  · rename_i track_list htl
    have h' := (Except.ok.inj h).symm
    subst h'
    refine ⟨rfl, by simp [base_column_names]; omega, ?_⟩
    intro row hrow
    obtain ⟨base, extras, hrw, hb, he⟩ := buildRows_ok_shape _ _ _ _ htl row hrow
    constructor
    · rw [hrw]
      simp [hb, he]
      omega
    · rw [hrw, List.getElem?_append_right (by omega), hb]
      simp

/-- The row flatten produces for `sampleEntry1` with features
`sampleFeatures 1`, label "liked" and one extra path. -/
def c2row : List JValue :=
  [.str "2024-01-01", .str "song one", .str "id1", .str "artist one", .str "album one",
   .num 41, .num 1, .num 1, .num 5, .num (-7), .num 1, .num 1, .num 1, .num 0, .num 1,
   .num 1, .num 120, .num 200000, .num 4, .str "liked", .str "album one"]

/-- The DataFrame flatten produces on that one-entry input. -/
def c2df : DataFrame :=
  { columns := base_column_names ++ ["label"] ++ ["[track][album][name]"], rows := [c2row] }

/-- Witness for C2 at a concrete input with one extra path. -/
theorem merge_schema_witness :
    c2df.columns = base_column_names ++ ["label"] ++ ["[track][album][name]"] ∧
    c2df.columns.length = 20 + (["[track][album][name]"] : List String).length ∧
    ∀ row ∈ c2df.rows, row.length = 20 + (["[track][album][name]"] : List String).length ∧
      row[19]? = some (.str "liked") :=
  merge_schema [sampleEntry1] [sampleFeatures 1] (.str "liked") ["[track][album][name]"]
    c2df rfl

/-- With enough fuel, concatenating the batches gives back the input. -/
theorem chunksGo_join (fuel : Nat) (l : List String) (hf : l.length ≤ fuel) :
    (chunksGo fuel l).flatten = l := by
  induction fuel generalizing l with
  | zero =>
    have : l = [] := List.length_eq_zero.mp (Nat.le_zero.mp hf)
    simp [this, chunksGo]
  | succ fuel ih =>
    cases l with
    | nil => simp [chunksGo]
    | cons x xs =>
      have hlen : (xs.drop 99).length ≤ fuel := by
        simp only [List.length_drop]
        have : xs.length ≤ fuel := by simpa using hf
        omega
      simp only [chunksGo, List.flatten]
      rw [ih (xs.drop 99) hlen]
      simp [List.take_append_drop]

/-- Every batch holds between 1 and 100 identifiers. -/
theorem chunksGo_sizes (fuel : Nat) (l : List String) :
    ∀ c ∈ chunksGo fuel l, 0 < c.length ∧ c.length ≤ 100 := by
  induction fuel generalizing l with
  | zero => simp [chunksGo]
  | succ fuel ih =>
    cases l with
    | nil => simp [chunksGo]
    | cons x xs =>
      intro c hc
      simp only [chunksGo] at hc
      rcases List.mem_cons.mp hc with hc | hc
      · subst hc
        constructor
        · simp
        · simp only [List.length_cons, List.length_take]
          omega
      · exact ih (xs.drop 99) c hc

/-- Folding batch responses into the accumulator is appending the
concatenated responses. -/
theorem foldl_extend (api : List String → List JValue) (cs : List (List String))
    (acc : List JValue) :
    cs.foldl (fun a batch => a ++ api batch) acc = acc ++ (cs.map api).flatten := by
  induction cs generalizing acc with
  | nil => simp
  | cons c cs ih => simp [List.foldl_cons, ih, List.append_assoc]

set_option maxRecDepth 20000 in
/-- C3: fetchAudioFeatures (get_audio_features) partitions its input into
consecutive batches of at most 100, issues one request per batch, and
returns the concatenation of the per-batch responses; a response that maps
each identifier positionally (possibly to null) is therefore returned as
the positional map of the whole input, and 250 identifiers yield exactly
3 batches of sizes 100, 100, 50 and a 250-length result. -/
theorem get_audio_features_spec :
    (∀ ids : List String,
      (chunks100 ids).flatten = ids ∧ ∀ c ∈ chunks100 ids, 0 < c.length ∧ c.length ≤ 100) ∧
    (∀ (api : List String → List JValue) (f : String → JValue),
      (∀ batch, api batch = batch.map f) →
      ∀ ids, get_audio_features api ids = ids.map f) ∧
    (chunks100 (List.replicate 250 "t")).map List.length = [100, 100, 50] ∧
    (∀ (api : List String → List JValue) (f : String → JValue),
      (∀ batch, api batch = batch.map f) →
      (get_audio_features api (List.replicate 250 "t")).length = 250) := by
  have hjoin : ∀ ids : List String, (chunks100 ids).flatten = ids :=
    fun ids => chunksGo_join ids.length ids le_rfl
  have hmap : ∀ (api : List String → List JValue) (f : String → JValue),
      (∀ batch, api batch = batch.map f) →
      ∀ ids, get_audio_features api ids = ids.map f := by
    intro api f hapi ids
    unfold get_audio_features
    rw [foldl_extend]
    have hcs : (chunks100 ids).map api = (chunks100 ids).map (List.map f) := by
      simp [hapi]
    rw [hcs, List.nil_append, ← List.map_flatten, hjoin ids]
  have hconc : (chunks100 (List.replicate 250 "t")).map List.length = [100, 100, 50] := by
    decide
  refine ⟨fun ids => ⟨hjoin ids, chunksGo_sizes _ _⟩, hmap, hconc, ?_⟩
  intro api f hapi
  rw [hmap api f hapi, List.length_map, List.length_replicate]

/-- Witness for C3: a positionally-mapping client applied to a 3-identifier
input returns one response value per identifier, in order. -/
theorem get_audio_features_spec_witness :
    get_audio_features (fun batch => batch.map (fun _ => JValue.null)) ["a", "b", "c"]
      = [JValue.null, JValue.null, JValue.null] :=
  (get_audio_features_spec.2.1 (fun batch => batch.map (fun _ => JValue.null))
    (fun _ => JValue.null) (fun _ => rfl) ["a", "b", "c"]).trans rfl

/-- C6: with mismatched names/artists lengths, or with timePoints given and
of mismatched length, searchTracksByNameArtist raises ValueError with an
empty query log — no network call is made and no other state exists. -/
theorem search_length_guard (search : String → JValue)
    (track_names artist_names : List String) (time_points : TimePoints)
    (h : track_names.length ≠ artist_names.length ∨
      (0 < time_points.len ∧ track_names.length ≠ time_points.len)) :
    get_tracks_by_names_and_artists search track_names artist_names time_points
      = ([], .error .valueError) := by
  unfold get_tracks_by_names_and_artists
  rcases h with h | h
  · rw [if_pos h]
  · by_cases h1 : track_names.length ≠ artist_names.length
    · rw [if_pos h1]
    · rw [if_neg h1, if_pos h]

/-- Witness for C6: one name against zero artists, and one name against a
two-point Series. -/
theorem search_length_guard_witness :
    get_tracks_by_names_and_artists (fun _ => JValue.null) ["n"] [] (.pylist [])
      = ([], .error .valueError) ∧
    get_tracks_by_names_and_artists (fun _ => JValue.null) ["n"] ["a"]
      (.series [.str "t1", .str "t2"]) = ([], .error .valueError) :=
  ⟨search_length_guard _ _ _ _ (Or.inl (by decide)),
   search_length_guard _ _ _ _ (Or.inr ⟨by decide, by decide⟩)⟩

/-- The well-formed search responses used for C7 and C10: every query
returns a response of the shape the code reads, with item list given by
the oracle. -/
def shapedResponse (itemsOf : String → List JValue) (q : String) : JValue :=
  .obj [("tracks", .obj [("items", .arr (itemsOf q))])]

/-- The song record built for a found match (src/spotipy_func.py:314). -/
def songRecord (added_at item0 : JValue) : JValue :=
  .obj [("added_at", added_at), ("track", item0)]

/-- On a shaped response, the `.get` chain yields exactly the item list. -/
theorem shapedResponse_items (itemsOf : String → List JValue) (q : String) :
    (match ((shapedResponse itemsOf q).getDefault "tracks" (.obj [])) with
      | .error e => .error e
      | .ok t => t.getDefault "items" (.arr []))
      = Except.ok (JValue.arr (itemsOf q)) := rfl

/-- With empty timePoints (the default), the search loop returns, in input
order, one song per pair whose response item list is non-empty, and skips
the rest without a placeholder. -/
theorem searchLoop_pylist_nil (itemsOf : String → List JValue) (i : Nat)
    (pairs : List (String × String)) :
    searchLoop (shapedResponse itemsOf) (.pylist []) i pairs
      = ((pairs.map (fun p => searchQuery p.1 p.2)),
         .ok (pairs.filterMap (fun p =>
           match itemsOf (searchQuery p.1 p.2) with
           | [] => none
           | item0 :: _ => some (songRecord .null item0)))) := by
  induction pairs generalizing i with
  | nil => rfl
  | cons p rest ih =>
    obtain ⟨track_name, artist_name⟩ := p
    rw [searchLoop]
    cases hq : itemsOf (searchQuery track_name artist_name) with
    | nil =>
      simp only [shapedResponse, ih (i + 1), List.map_cons, List.filterMap_cons, hq]
      rfl
    | cons item0 restItems =>
      simp only [shapedResponse, ih (i + 1), List.map_cons, List.filterMap_cons, hq]
      rfl

/-- C7: with equal-length inputs (and no timePoints), searchTracksByNameArtist
returns, in input order, one song per index whose single best-match search
found a track, omits missed slots entirely, and so returns at most
len(names) results. -/
theorem search_omits_misses (itemsOf : String → List JValue)
    (track_names artist_names : List String)
    (hlen : track_names.length = artist_names.length) :
    (get_tracks_by_names_and_artists (shapedResponse itemsOf) track_names artist_names
        (.pylist [])).2
      = .ok ((track_names.zip artist_names).filterMap (fun p =>
          match itemsOf (searchQuery p.1 p.2) with
          | [] => none
          | item0 :: _ => some (songRecord .null item0))) ∧
    ((track_names.zip artist_names).filterMap (fun p =>
          match itemsOf (searchQuery p.1 p.2) with
          | [] => none
          | item0 :: _ => some (songRecord .null item0))).length ≤ track_names.length := by
  constructor
  · unfold get_tracks_by_names_and_artists
    rw [if_neg (fun h => h hlen), if_neg (by simp [TimePoints.len])]
    rw [searchLoop_pylist_nil]
  · exact le_trans (List.length_filterMap_le _ _) (by rw [List.length_zip]; omega)

/-- The search oracle for the C7 witness: only the first query has a match. -/
def c7items (q : String) : List JValue :=
  if q = searchQuery "n1" "a1" then [.str "t1"] else []

/-- Witness for C7: of two queries, the first finds a track and the second
does not; the result holds exactly the one found song. -/
theorem search_omits_misses_witness :
    (get_tracks_by_names_and_artists (shapedResponse c7items) ["n1", "n2"] ["a1", "a2"]
        (.pylist [])).2 = .ok [songRecord .null (.str "t1")] :=
  ((search_omits_misses c7items ["n1", "n2"] ["a1", "a2"] rfl).1).trans rfl

/-- With a non-empty plain-list timePoints, as soon as one search finds a
match the loop evaluates `.iloc` on the list and raises AttributeError. -/
theorem searchLoop_pylist_iloc_error (itemsOf : String → List JValue) (tl : List JValue)
    (htl : tl ≠ []) (i : Nat) (pairs : List (String × String))
    (hhit : ∃ p ∈ pairs, itemsOf (searchQuery p.1 p.2) ≠ []) :
    (searchLoop (shapedResponse itemsOf) (.pylist tl) i pairs).2
      = .error .attributeError := by
  induction pairs generalizing i with
  | nil => simp at hhit
  | cons p rest ih =>
    obtain ⟨track_name, artist_name⟩ := p
    rw [searchLoop]
    cases hq : itemsOf (searchQuery track_name artist_name) with
    | nil =>
      have hrest : ∃ p ∈ rest, itemsOf (searchQuery p.1 p.2) ≠ [] := by
        rcases hhit with ⟨p, hp, hne⟩
        rcases List.mem_cons.mp hp with hp | hp
        · subst hp
          exact absurd hq hne
        · exact ⟨p, hp, hne⟩
      rcases hsl : searchLoop (shapedResponse itemsOf) (.pylist tl) (i + 1) rest
        with ⟨log, res⟩
      have hres := ih (i + 1) hrest
      rw [hsl] at hres
      simp only [shapedResponse, hq, hsl]
      exact hres
    | cons item0 restItems =>
      have hlen : 0 < tl.length := List.length_pos.mpr htl
      simp only [shapedResponse, hq, TimePoints.len, hlen, if_pos, TimePoints.iloc]
      rfl

/-- C10: when timePoints is a non-empty plain Python list of matching
length and at least one search finds a match, searchTracksByNameArtist
raises AttributeError (list objects have no `.iloc`) instead of returning
a result. -/
theorem search_list_timepoints_attribute_error (itemsOf : String → List JValue)
    (track_names artist_names : List String) (tl : List JValue)
    (hlen : track_names.length = artist_names.length)
    (hlen2 : track_names.length = tl.length)
    (htl : tl ≠ [])
    (hhit : ∃ p ∈ track_names.zip artist_names, itemsOf (searchQuery p.1 p.2) ≠ []) :
    (get_tracks_by_names_and_artists (shapedResponse itemsOf) track_names artist_names
        (.pylist tl)).2 = .error .attributeError := by
  unfold get_tracks_by_names_and_artists
  rw [if_neg (fun h => h hlen), if_neg (fun h => h.2 hlen2)]
  exact searchLoop_pylist_iloc_error itemsOf tl htl 0 _ hhit

/-- Witness for C10: one name/artist pair, a one-element plain list of time
points, a search that finds a match — the call raises AttributeError. -/
theorem search_list_timepoints_attribute_error_witness :
    (get_tracks_by_names_and_artists (shapedResponse (fun _ => [.str "x"])) ["n"] ["a"]
        (.pylist [.str "2020"])).2 = .error .attributeError :=
  search_list_timepoints_attribute_error (fun _ => [.str "x"]) ["n"] ["a"] [.str "2020"]
    rfl rfl (by simp) ⟨("n", "a"), by simp, by simp⟩

/-- A playlist-entry wrapper: entry-level added_at plus the track reference. -/
def mkEntry (added_at track : JValue) : JValue :=
  .obj [("added_at", added_at), ("track", track)]

/-- C8: extractTrackIds returns exactly the identifiers of the entries
whose track reference is non-null, in input order (the output may be
shorter than the input), and calling it twice on the same input yields
identical output lists. -/
theorem extract_track_ids_spec (entries : List (JValue × JValue))
    (hwf : ∀ p ∈ entries, p.2 = JValue.null ∨
      ∃ id kvs, p.2 = JValue.obj (("id", id) :: kvs)) :
    extract_track_ids (entries.map (fun p => mkEntry p.1 p.2))
      = .ok (entries.filterMap (fun p =>
          match p.2 with
          | JValue.obj (("id", id) :: _) => some id
          | _ => none)) ∧
    extract_track_ids (entries.map (fun p => mkEntry p.1 p.2))
      = extract_track_ids (entries.map (fun p => mkEntry p.1 p.2)) := by
  refine ⟨?_, rfl⟩
  induction entries with
  | nil => rfl
  | cons p rest ih =>
    obtain ⟨a, t⟩ := p
    have hrest := ih (fun q hq => hwf q (List.mem_cons_of_mem _ hq))
    rcases hwf (a, t) (List.mem_cons_self _ _) with ht | ⟨id, kvs, ht⟩ <;> subst ht
    · simp only [List.map_cons, List.filterMap_cons]
      rw [extract_track_ids]
      rw [show (mkEntry a JValue.null).index "track" = .ok JValue.null from rfl]
      exact hrest
    · simp only [List.map_cons, List.filterMap_cons]
      rw [extract_track_ids]
      rw [show (mkEntry a (JValue.obj (("id", id) :: kvs))).index "track"
            = .ok (JValue.obj (("id", id) :: kvs)) from rfl]
      simp only [JValue.truthy, List.isEmpty_cons, Bool.not_false, if_true]
      rw [show (JValue.obj (("id", id) :: kvs)).index "id" = .ok id from rfl]
      rw [hrest]

/-- Witness for C8: two entries, one with a present track, one with a null
track; the null one is filtered out. -/
theorem extract_track_ids_spec_witness :
    extract_track_ids [mkEntry (.str "t1") (.obj [("id", .str "id1")]),
        mkEntry (.str "t2") .null]
      = .ok [.str "id1"] :=
  ((extract_track_ids_spec
      [((.str "t1"), .obj [("id", .str "id1")]), ((.str "t2"), .null)]
      (by
        rintro p hp
        rcases List.mem_cons.mp hp with hp | hp
        · subst hp
          exact Or.inr ⟨.str "id1", [], rfl⟩
        · rcases List.mem_cons.mp hp with hp | hp
          · subst hp
            exact Or.inl rfl
          · simp at hp)).1).trans rfl

/-- getD on a constant list, in range, returns the constant. -/
theorem replicate_getD (n : Nat) (c d : Rat) (i : Nat) (hi : i < n) :
    (List.replicate n c).getD i d = c := by
  rw [List.getD_eq_getElem?_getD, List.getElem?_replicate]
  simp [hi]

/-- The mean of a constant non-empty list is the constant. -/
theorem np_mean_replicate (n : Nat) (c : Rat) (hn : 1 ≤ n) :
    np_mean (List.replicate n c) = c := by
  unfold np_mean
  rw [List.sum_replicate, List.length_replicate, nsmul_eq_mul]
  have h0 : (n : Rat) ≠ 0 := Nat.cast_ne_zero.mpr (by omega)
  field_simp

/-- Any percentile (between 0 and 100) of a constant non-empty list is the
constant. -/
theorem np_percentile_replicate (n : Nat) (c : Rat) (p : Rat)
    (hn : 1 ≤ n) (hp0 : 0 ≤ p) (hp1 : p ≤ 100) :
    np_percentile (List.replicate n c) p = c := by
  unfold np_percentile
  dsimp only
  have hperm := List.mergeSort_perm (List.replicate n c) (fun x y => decide (x ≤ y))
  have hs : (List.replicate n c).mergeSort (fun x y => decide (x ≤ y))
      = List.replicate n c := by
    apply List.eq_replicate_iff.mpr
    exact ⟨by simp [hperm.length_eq],
      fun b hb => List.eq_of_mem_replicate (hperm.mem_iff.mp hb)⟩
  rw [hs, List.length_replicate]
  have hn1 : (1 : Rat) ≤ (n : Rat) := by exact_mod_cast hn
  have h0 : 0 ≤ p / 100 * ((n : Rat) - 1) :=
    mul_nonneg (by positivity) (by linarith)
  have h1 : p / 100 * ((n : Rat) - 1) ≤ (n : Rat) - 1 := by
    have hle : p / 100 ≤ 1 := by linarith
    calc p / 100 * ((n : Rat) - 1) ≤ 1 * ((n : Rat) - 1) :=
          mul_le_mul_of_nonneg_right hle (by linarith)
      _ = (n : Rat) - 1 := one_mul _
  have hfl0 : 0 ≤ ⌊p / 100 * ((n : Rat) - 1)⌋ := Int.floor_nonneg.mpr h0
  have hfln : ⌊p / 100 * ((n : Rat) - 1)⌋ ≤ (n : Int) - 1 := by
    calc ⌊p / 100 * ((n : Rat) - 1)⌋ ≤ ⌊(n : Rat) - 1⌋ := Int.floor_mono h1
      _ = (n : Int) - 1 := by
          rw [show ((n : Rat) - 1) = (((n : Int) - 1 : Int) : Rat) by push_cast; ring]
          exact Int.floor_intCast _
  have hidx : (⌊p / 100 * ((n : Rat) - 1)⌋).toNat < n := by omega
  rw [replicate_getD n c 0 _ hidx]
  by_cases hcase : (⌊p / 100 * ((n : Rat) - 1)⌋).toNat + 1 < n
  · rw [replicate_getD n c c _ hcase]
    ring
  · rw [List.getD_eq_default]
    · ring
    · simp only [List.length_replicate]
      omega

/-- C9: bootstrapCI draws nBootstrap resamples of size len(data) with
replacement, takes the mean of each, and returns the (100-ci)/2-th and
100-(100-ci)/2-th percentiles of those means; on constant data, for every
resampling oracle, every nBootstrap at least 1 and every ci between 0 and
100, it returns the degenerate interval at that constant. -/
theorem bootstrap_ci_const (pick : Nat → Nat → Nat) (m n_bootstrap : Nat) (c ci : Rat)
    (hm : 1 ≤ m) (hn : 1 ≤ n_bootstrap)
    (hpick : ∀ r j, pick r j < m)
    (hci0 : 0 ≤ ci) (hci1 : ci ≤ 100) :
    bootstrap_ci pick (List.replicate m c) n_bootstrap ci = (c, c) := by
  unfold bootstrap_ci
  dsimp only
  have hchoice : ∀ r, np_choice (List.replicate m c) (List.replicate m c).length (pick r)
      = List.replicate m c := by
    intro r
    unfold np_choice
    apply List.eq_replicate_iff.mpr
    refine ⟨by simp, ?_⟩
    intro b hb
    simp only [List.mem_map, List.mem_range] at hb
    obtain ⟨j, _, hb⟩ := hb
    rw [← hb]
    exact replicate_getD _ _ _ _ (hpick r j)
  have hmeans : (List.range n_bootstrap).map
      (fun r => np_mean (np_choice (List.replicate m c) (List.replicate m c).length (pick r)))
      = List.replicate n_bootstrap c := by
    apply List.eq_replicate_iff.mpr
    refine ⟨by simp, ?_⟩
    intro b hb
    simp only [List.mem_map, List.mem_range] at hb
    obtain ⟨r, _, hb⟩ := hb
    rw [← hb, hchoice r, np_mean_replicate m c hm]
  rw [hmeans,
    np_percentile_replicate n_bootstrap c _ hn (by linarith) (by linarith),
    np_percentile_replicate n_bootstrap c _ hn (by linarith) (by linarith)]

/-- Witness for C9: the spec's concrete case, constant data of five 5s, 100
resamples, ci = 95, gives the degenerate interval (5, 5). -/
theorem bootstrap_ci_const_witness :
    bootstrap_ci (fun _ _ => 0) (List.replicate 5 5) 100 95 = (5, 5) :=
  bootstrap_ci_const (fun _ _ => 0) 5 100 5 95 (by norm_num) (by norm_num)
    (fun _ _ => by norm_num) (by norm_num) (by norm_num)
